import Mathlib

/-!
Verification development for the file-cache repository: a shallow embedding of
the coordinator (`src/BaseCache.js`) and the file storage backend
(`src/unnamed/part_000`, `src/unnamed/part_001`), with theorems settling the
specification claims.

Conventions of the embedding:
* JS strings are modelled as `List Char`, byte buffers as `List Nat`.
* A possibly-`undefined` JS value of type `α` is modelled as `Option α`
  (`none` = `undefined`).
* A JS promise / async result is modelled by its eventual outcome
  `Except Unit (Option α)` (`Except.error` = the promise rejects).
* External libraries (zstd compress/decompress, sha1) are parameters of the
  definitions that use them; the code under verification never inspects their
  output, only threads it through.
-/

/-! ## Byte-level backend helpers (src/unnamed/part_001, lines 10-21) -/

/-- Embeds `compressMaybe` (part_001 lines 10-13): buffers shorter than 256
bytes are stored raw, larger buffers are compressed with the external zstd
`compress`, passed here as a parameter. -/
def compressMaybe (compress : List Nat → List Nat) (buffer : List Nat) : List Nat :=
  if buffer.length < 256 then buffer else compress buffer

/-- The magic-number sniff of `decompressMaybe` (part_001 line 17):
`buffer[3] === 0xFD && buffer[2] === 0x2F && buffer[1] === 0xB5 && buffer[0] === 0x28`. -/
def zstdMagicMatch (buffer : List Nat) : Bool :=
  buffer.getD 3 0 == 0xFD && buffer.getD 2 0 == 0x2F &&
  buffer.getD 1 0 == 0xB5 && buffer.getD 0 0 == 0x28

/-- Embeds `decompressMaybe` (part_001 lines 15-21): buffers shorter than 64
bytes are returned raw without any check; otherwise the first four bytes are
compared against the zstd magic number and the buffer is decompressed only on
a match. -/
def decompressMaybe (decompress : List Nat → List Nat) (buffer : List Nat) : List Nat :=
  if buffer.length < 64 then buffer
  else if zstdMagicMatch buffer then decompress buffer
  else buffer

/-! ## Key-to-path encoding

Two implementations exist in the repository sources:
* the class-based `FileCacheBackend.keyToPath` (part_001 lines 31-36), which
  splits the key on the separator `"\v/"` and hashes only the final segment;
* the object-literal `FileCache.backend.keyToPath` (part_000 lines 69-83),
  which sanitizes the key and hashes the whole key when it is longer than
  2048 characters.
-/

/-- JS `key.split('\v/')` specialised to the two-character separator of
`FileCacheBackend.KEY_SEPARATOR` (part_001 line 28): left-to-right,
non-overlapping splits. The accumulator holds the current segment reversed. -/
def splitVSlash : List Char → List Char → List (List Char)
  | '\x0b' :: '/' :: rest, acc => acc.reverse :: splitVSlash rest []
  | c :: rest, acc => splitVSlash rest (c :: acc)
  | [], acc => [acc.reverse]

/-- JS `parts.join('/')`. -/
def joinSlash : List (List Char) → List Char
  | [] => []
  | [p] => p
  | p :: rest => p ++ '/' :: joinSlash rest

/-- `parts[parts.length - 1] = hash(parts[parts.length - 1])` (part_001 line 34). -/
def mapLast (f : List Char → List Char) : List (List Char) → List (List Char)
  | [] => []
  | [p] => [f p]
  | p :: rest => p :: mapLast f rest

namespace FileCacheBackend

/-- Embeds the class-based `FileCacheBackend.keyToPath` (part_001 lines 31-36):
split the key on `KEY_SEPARATOR`, replace the final segment with its hash, and
join under the cache directory. The sha1-derived `hash` (part_001 lines 23-25)
is an external-library digest, passed as a parameter. -/
def keyToPath (hash : List Char → List Char) (cacheDir : List Char)
    (key : List Char) : List Char :=
  let parts := splitVSlash key []
  let parts2 := mapLast hash parts
  cacheDir ++ '/' :: joinSlash parts2

end FileCacheBackend

/-- Character class of the sanitizing regex in part_000 line 74:
whitespace plus the listed filesystem-unsafe specials. Backtick, apostrophe
and double quote are written via `Char.ofNat` (codes 96, 39, 34). -/
def isUnsafeChar (c : Char) : Bool :=
  c == ' ' || c == '\t' || c == '\n' || c == '\r' || c == '\x0b' || c == '\x0c' ||
  c == Char.ofNat 96 || c == '!' || c == '@' || c == '#' || c == '$' || c == '%' ||
  c == '^' || c == '&' || c == '*' || c == '(' || c == ')' || c == '=' || c == '+' ||
  c == '[' || c == ']' || c == '\x7b' || c == '\x7d' || c == '\\' || c == '|' ||
  c == ':' || c == ';' || c == Char.ofNat 39 || c == Char.ofNat 34 || c == ',' ||
  c == '<' || c == '>' || c == '/' || c == '?'

/-- JS `key.replace(/[...]+/g, '/')` of part_000 line 74: each maximal run of
unsafe characters becomes a single `'/'`. A run is collapsed by merging a
produced `'/'` with the one produced by the rest of the run; safe characters
are kept verbatim (a kept character is never `'/'`, since `'/'` is unsafe). -/
def collapseUnsafe : List Char → List Char
  | [] => []
  | c :: rest =>
    if isUnsafeChar c then
      match collapseUnsafe rest with
      | '/' :: tail => '/' :: tail
      | tail => '/' :: tail
    else c :: collapseUnsafe rest

/-- JS `.replace(/\/$/, '')` of part_000 line 74: drop one trailing `'/'`. -/
def dropTrailingSlash (s : List Char) : List Char :=
  match s.getLast? with
  | some '/' => s.dropLast
  | _ => s

/-- JS `key.match(/\/[^/]*$/)` of part_000 line 76: the last `'/'`-segment of
the key including its leading slash, or `none` when the key has no slash. -/
def lastSlashSeg (s : List Char) : Option (List Char) :=
  let rev := s.reverse
  let seg := rev.takeWhile (fun c => c != '/')
  if seg.length == rev.length then none else some ('/' :: seg.reverse)

/-- JS `key.replace(/\/[^/]*$/, '/' + repl)` of part_000 line 78. -/
def replaceLastSeg (s : List Char) (repl : List Char) : List Char :=
  let rev := s.reverse
  let seg := rev.takeWhile (fun c => c != '/')
  (rev.drop (seg.length + 1)).reverse ++ '/' :: repl

namespace FileCacheObjectBackend

/-- Embeds the object-literal `FileCache.backend.keyToPath` (part_000 lines
69-83): keys longer than 2048 characters are replaced wholesale by their sha1
digest; shorter keys are sanitized, and an over-long (more than 200 character)
final segment is replaced by its digest. `sha1` (part_000 lines 56-58) is the
external base64url digest, passed as a parameter. -/
def keyToPath (sha1 : List Char → List Char) (cacheDir : List Char)
    (key : List Char) : List Char :=
  if key.length > 2048 then
    cacheDir ++ '/' :: sha1 key
  else
    let key1 := dropTrailingSlash (collapseUnsafe key)
    let key2 :=
      if key1.length > 200 then
        match lastSlashSeg key1 with
        | some lastPart =>
          if lastPart.length > 200 then replaceLastSeg key1 (sha1 lastPart) else key1
        | none => key1
      else key1
    cacheDir ++ '/' :: key2

end FileCacheObjectBackend

/-! ## JSON envelope serialization (part_001 line 74: `JSON.stringify({t, c, v: value})`) -/

mutual

/-- A JSON value, as produced by the cache's envelope serialization. Strings
are unescaped character lists (escaping does not affect the first byte of an
object serialization, which is all the claims need). -/
inductive Json where
  | num (n : Nat)
  | str (s : List Char)
  | obj (fields : JsonFields)

/-- Field list of a JSON object. -/
inductive JsonFields where
  | nil
  | cons (name : List Char) (value : Json) (rest : JsonFields)

end

mutual

/-- `JSON.stringify` on the modelled JSON values, producing a JS string
(`List Char`). An object always serializes to `'\x7b' ... '\x7d'`. -/
def Json.stringify : Json → List Char
  | .num n => Nat.toDigits 10 n
  | .str s => Char.ofNat 34 :: s ++ [Char.ofNat 34]
  | .obj fields => '\x7b' :: JsonFields.stringify fields ++ ['\x7d']

/-- Serialization of an object's fields, comma separated. -/
def JsonFields.stringify : JsonFields → List Char
  | .nil => []
  | .cons name value .nil =>
    Char.ofNat 34 :: name ++ Char.ofNat 34 :: ':' :: Json.stringify value
  | .cons name value rest =>
    Char.ofNat 34 :: name ++ Char.ofNat 34 :: ':' :: Json.stringify value
      ++ ',' :: JsonFields.stringify rest

end

/-- UTF-8 encoding of a single character (`Buffer.from(string)` encodes UTF-8). -/
def utf8EncodeChar (c : Char) : List Nat :=
  let n := c.toNat
  if n < 0x80 then [n]
  else if n < 0x800 then [0xC0 + n / 64, 0x80 + n % 64]
  else if n < 0x10000 then [0xE0 + n / 4096, 0x80 + (n / 64) % 64, 0x80 + n % 64]
  else [0xF0 + n / 0x40000, 0x80 + (n / 4096) % 64, 0x80 + (n / 64) % 64, 0x80 + n % 64]

/-- UTF-8 encoding of a JS string: `Buffer.from(s)` as a byte list. -/
def utf8Encode : List Char → List Nat
  | [] => []
  | c :: rest => utf8EncodeChar c ++ utf8Encode rest

/-- The envelope object `{t, c, v: value}` written by the backend
(part_001 line 74). -/
def envelope (t c v : Json) : Json :=
  Json.obj (.cons ['t'] t (.cons ['c'] c (.cons ['v'] v .nil)))

/-- The byte buffer written by `FileCacheBackend.set` (part_001 lines 73-75):
`compressMaybe(Buffer.from(JSON.stringify({t, c, v: value})))`. -/
def FileCacheBackend.setBuffer (compress : List Nat → List Nat) (doc : Json) :
    List Nat :=
  compressMaybe compress (utf8Encode (Json.stringify doc))

/-! ## Coordinator data model (src/BaseCache.js) -/

/-- A stored cache entry: the parsed `{v, c, t}` envelope (`CacheValue`
typedef, BaseCache.js lines 45-52). `v = none` models a stored `undefined`;
`t = 0` models a missing or zero ttl, which JS truthiness treats alike. -/
structure CacheValue (α : Type) where
  v : Option α
  c : Nat
  t : Nat
deriving DecidableEq, Repr

deriving instance DecidableEq for Except

/-- The four per-key in-flight registries (BaseCache.js lines 8-11), restricted
to one key. A registered promise is modelled by its eventual outcome; the
`getOrSettingStale` registry only ever holds the literal `true`
(line 530), hence a `Bool`. -/
structure Regs (α : Type) where
  getting : Option (Except Unit (Option α))
  setting : Option (Except Unit (Option α))
  getOrSetting : Option (Except Unit (Option α))
  getOrSettingStale : Bool
deriving DecidableEq, Repr

/-- All registries empty: the state before any operation touches the key. -/
def Regs.empty (α : Type) : Regs α :=
  { getting := none, setting := none, getOrSetting := none, getOrSettingStale := false }

/-- The per-key mutable state an operation sees: the backend store content for
the key, and the in-flight registries. -/
structure OpState (α : Type) where
  store : Option (CacheValue α)
  regs : Regs α
deriving DecidableEq, Repr

/-- The `CacheSetOpts` typedef (BaseCache.js lines 62-86). `requireResult`
models `options.requireResult !== false` as a `Bool` (absent = `true`);
`staleTTL = 0` models an absent `staleTTL`; the `fromJSON`/`process`
transforms may return `undefined` or throw. -/
structure CacheSetOpts (α : Type) where
  ttl : Nat
  staleTTL : Nat
  requireResult : Bool
  freshResult : Bool
  forceUpdate : Bool
  fromJSON : Option (Option α → Except Unit (Option α))
  process : Option (Option α → Except Unit (Option α))
  default : Option α

/-- Options with everything absent, `ttl = 0`. -/
def CacheSetOpts.plain (α : Type) : CacheSetOpts α :=
  { ttl := 0, staleTTL := 0, requireResult := true, freshResult := false,
    forceUpdate := false, fromJSON := none, process := none, default := none }

/-- `_withDefault` (BaseCache.js lines 13-17). -/
def _withDefault {α : Type} (p : Except Unit (Option α)) (defaultValue : Option α) :
    Except Unit (Option α) :=
  match p with
  | .error e => .error e
  | .ok none => .ok defaultValue
  | .ok (some v) => .ok (some v)

/-- `_withDefaultOpts` (BaseCache.js lines 19-23): substitute `opts.default`
for an undefined result, then apply `opts.process` when present. -/
def _withDefaultOpts {α : Type} (opts : CacheSetOpts α) (p : Except Unit (Option α)) :
    Except Unit (Option α) :=
  match p with
  | .error e => .error e
  | .ok none => .ok opts.default
  | .ok (some v) =>
    match opts.process with
    | none => .ok (some v)
    | some f => f (some v)

/-- `setCtxStale` (BaseCache.js lines 30-36): with a configured `staleTTL`,
an entry is stale when `value.c < Date.now() - ctx.staleTTL`. The subtraction
is over the integers, as in JS. -/
def setCtxStale {α : Type} (staleTTL now : Nat) (value : CacheValue α) : Bool :=
  staleTTL != 0 && decide ((value.c : Int) < (now : Int) - (staleTTL : Int))

/-- The expiry test of `BaseCache._get` (lines 239-240):
`val && val.t` truthy and `val.c < Date.now() - val.t`. -/
def isExpired {α : Type} (now : Nat) (val : CacheValue α) : Bool :=
  val.t != 0 && decide ((val.c : Int) < (now : Int) - (val.t : Int))

/-- `BaseCache._get` (lines 236-251): backend read with lazy expiry (an
expired entry is deleted and reported as a miss); backend errors are caught,
logged and reported as a miss. `readOk = false` models a throwing backend
read. Returns the value seen by the caller and the store after the lazy
delete. -/
def BaseCache._get {α : Type} (readOk : Bool) (now : Nat)
    (store : Option (CacheValue α)) :
    Option (CacheValue α) × Option (CacheValue α) :=
  if readOk then
    match store with
    | none => (none, store)
    | some val =>
      if isExpired now val then (none, none)
      else (some val, store)
  else (none, store)

/-- The `value` argument of `set`/`getOrSet` with its dynamic classification
and outcome baked in: a plain defined value, the `undefined` value, a promise
with its eventual outcome (`none` = it resolves to `undefined`), or a producer
function together with what calling it returns (`fnThrows` = the call itself
throws). A function returning a bare function is outside the model; no claim
exercises it. -/
inductive SetValue (α : Type) where
  | plain (v : α)
  | undef
  | promiseOk (v : Option α)
  | promiseErr
  | fn (inner : SetValue α)
  | fnThrows
deriving DecidableEq, Repr

/-- `BaseCache._set` (lines 253-266): backend write of
`{t: ttl, c: createdAt || Date.now()}` around the value; backend errors are
caught, logged and reported as `false` — they are never re-thrown.
`backendOk = false` models a throwing backend write. -/
def BaseCache._set {α : Type} (backendOk : Bool) (now : Nat)
    (store : Option (CacheValue α)) (value : Option α) (ttl createdAt : Nat) :
    Bool × Option (CacheValue α) :=
  match value with
  | none => (true, store)
  | some v =>
    if backendOk then
      (true, some { v := some v, t := ttl, c := if createdAt == 0 then now else createdAt })
    else (false, store)

/-- `BaseCache._setBoth` (lines 307-313): skip an undefined value, compute the
local result through `options.process` (which may throw), then write the
unprocessed value with `createdAt = Date.now()`. Returns the local value or
the thrown error, paired with the store after the write; the boolean returned
by `_set` is discarded, as in the source. -/
def BaseCache._setBoth {α : Type} (backendOk : Bool) (now : Nat)
    (opts : CacheSetOpts α) (store : Option (CacheValue α)) (value : Option α) :
    Except Unit (Option α) × Option (CacheValue α) :=
  match value with
  | none => (.ok none, store)
  | some x =>
    match opts.process with
    | none =>
      let r := BaseCache._set backendOk now store (some x) opts.ttl now
      (.ok (some x), r.2)
    | some p =>
      match p (some x) with
      | .error e => (.error e, store)
      | .ok localVal =>
        let r := BaseCache._set backendOk now store (some x) opts.ttl now
        (.ok localVal, r.2)

/-- Outcome of a `set` call: the returned boolean or thrown error, `ctx.result`
as observed by `getOrSet`, the final per-key state, and whether the
attempt-to-set-undefined error was logged. -/
structure SetOutcome (α : Type) where
  result : Except Unit Bool
  ctxResult : Option α
  state : OpState α
  loggedUndefined : Bool
deriving DecidableEq, Repr

/-- `BaseCache.set` (lines 432-467). A promise value is registered under
`setting`, resolved, written via `_setBoth`, and the entry deleted; a function
is called and its result re-enters `set`; `undefined` is logged and reported
as `false` without touching the registry. Failures of the resolution or of
`_setBoth` reach the catch block (lines 461-466): the key is deleted, the
`setting` entry cleared, and the error re-thrown. A failing backend write is
swallowed inside `_set` and never reaches the catch block. -/
def BaseCache.set {α : Type} (backendOk : Bool) (now : Nat) (opts : CacheSetOpts α)
    (st : OpState α) : SetValue α → SetOutcome α
  | .promiseOk v =>
    match BaseCache._setBoth backendOk now opts st.store v with
    | (.ok localVal, store2) =>
      { result := .ok true, ctxResult := localVal,
        state := { store := store2, regs := { st.regs with setting := none } },
        loggedUndefined := false }
    | (.error e, _) =>
      { result := .error e, ctxResult := none,
        state := { store := none, regs := { st.regs with setting := none } },
        loggedUndefined := false }
  | .promiseErr =>
    { result := .error (), ctxResult := none,
      state := { store := none, regs := { st.regs with setting := none } },
      loggedUndefined := false }
  | .fn inner => BaseCache.set backendOk now opts st inner
  | .fnThrows =>
    { result := .error (), ctxResult := none,
      state := { store := none, regs := { st.regs with setting := none } },
      loggedUndefined := false }
  | .undef =>
    { result := .ok false, ctxResult := none, state := st, loggedUndefined := true }
  | .plain v =>
    match BaseCache._setBoth backendOk now opts st.store (some v) with
    | (.ok localVal, store2) =>
      { result := .ok true, ctxResult := localVal,
        state := { store := store2, regs := { st.regs with setting := none } },
        loggedUndefined := false }
    | (.error e, _) =>
      { result := .error e, ctxResult := none,
        state := { store := none, regs := { st.regs with setting := none } },
        loggedUndefined := false }

/-- The transform chain of `getStale`'s `.then` callback (lines 330-342),
minus the `ctx` mutation: an undefined read passes through untouched;
otherwise `value.v` is piped through `options.fromJSON` and then
`options.process`, either of which may throw. -/
def getStaleTransform {α : Type} (opts : CacheSetOpts α)
    (value : Option (CacheValue α)) : Except Unit (Option α) :=
  match value with
  | none => .ok none
  | some val =>
    let step1 : Except Unit (Option α) :=
      match opts.fromJSON with
      | none => .ok val.v
      | some f => f val.v
    match step1 with
    | .error e => .error e
    | .ok v1 =>
      match opts.process with
      | none => .ok v1
      | some p => p v1

/-- Outcome of a read-family operation: the resolved value or thrown error,
the `ctx.isStale` flag, and the final per-key state. -/
structure GetOutcome (α : Type) where
  result : Except Unit (Option α)
  isStale : Bool
  state : OpState α
deriving DecidableEq, Repr

/-- `BaseCache.getStale` (lines 322-350). A pending `getting` promise is
awaited and shared; otherwise the read promise is registered under `getting`
for the duration of the read and deleted once it resolves (line 346). When
the transform chain throws, the `await promise` on line 345 re-throws before
the `DELETE` line runs, so the settled rejected promise stays registered.
`ctx.isStale` is set from the raw entry before the transforms run. -/
def BaseCache.getStale {α : Type} (readOk : Bool) (now staleTTL : Nat)
    (opts : CacheSetOpts α) (defaultValue : Option α) (st : OpState α) :
    GetOutcome α :=
  match st.regs.getting with
  | some p =>
    { result := _withDefault p defaultValue, isStale := false, state := st }
  | none =>
    let r := BaseCache._get readOk now st.store
    let isStale := match r.1 with
      | some val => setCtxStale staleTTL now val
      | none => false
    match getStaleTransform opts r.1 with
    | .error e =>
      { result := .error e, isStale,
        state := { store := r.2, regs := { st.regs with getting := some (.error e) } } }
    | .ok v =>
      { result := .ok (if v.isNone then defaultValue else v), isStale,
        state := { store := r.2, regs := { st.regs with getting := none } } }

/-- `BaseCache.get` (lines 359-366): a pending `setting` promise is observed
first (so a reader racing a writer sees the value being written); otherwise
delegate to `getStale` with an empty `ctx` (hence `staleTTL = 0`). -/
def BaseCache.get {α : Type} (readOk : Bool) (now : Nat) (opts : CacheSetOpts α)
    (defaultValue : Option α) (st : OpState α) : GetOutcome α :=
  match st.regs.setting with
  | some p => { result := _withDefault p defaultValue, isStale := false, state := st }
  | none => BaseCache.getStale readOk now 0 opts defaultValue st

/-- The bypass branch of `getOrSet`/`_getOrSetStale` (lines 509-512 and
551-554): call the value if it is a function, await, and hand the outcome to
`_withDefaultOpts`. -/
def evalDirect {α : Type} : SetValue α → Except Unit (Option α)
  | .plain v => .ok (some v)
  | .undef => .ok none
  | .promiseOk v => .ok v
  | .promiseErr => .error ()
  | .fn inner => evalDirect inner
  | .fnThrows => .error ()

/-- `BaseCache._getOrSet` (lines 469-484): return an existing value, fall back
to `options.default` when the value argument is undefined, otherwise run `set`
and return `ctx.result` (or the default when that is undefined). Errors from
`getStale` or `set` propagate to the caller. -/
def BaseCache._getOrSet {α : Type} (readOk backendOk : Bool) (now : Nat)
    (opts : CacheSetOpts α) (value : SetValue α) (st : OpState α) :
    Except Unit (Option α) × OpState α :=
  let gs := BaseCache.getStale readOk now 0 opts none st
  match gs.result with
  | .error e => (.error e, gs.state)
  | .ok (some existing) => (.ok (some existing), gs.state)
  | .ok none =>
    match value with
    | .undef => (.ok opts.default, gs.state)
    | v =>
      let o := BaseCache.set backendOk now opts gs.state v
      match o.result with
      | .error e => (.error e, o.state)
      | .ok _ => (.ok (if o.ctxResult.isNone then opts.default else o.ctxResult), o.state)

/-- Outcome of a `getOrSet`-family operation: resolved value or thrown error,
final per-key state, whether a background regeneration job was spawned, and
whether the call went through the foreground `_setWithCheck` path. -/
structure OpOutcome (α : Type) where
  result : Except Unit (Option α)
  state : OpState α
  bgSpawned : Bool
  foreground : Bool
deriving DecidableEq, Repr

/-- `BaseCache._setWithCheck` (lines 537-547): share a pending `setting`
promise, otherwise run `set` in the foreground; a thrown `set` error
propagates, since the `await this.set` there has no try/catch. -/
def BaseCache._setWithCheck {α : Type} (backendOk : Bool) (now : Nat)
    (opts : CacheSetOpts α) (value : SetValue α) (st : OpState α) : OpOutcome α :=
  match st.regs.setting with
  | some p =>
    { result := _withDefaultOpts opts p, state := st, bgSpawned := false, foreground := true }
  | none =>
    let o := BaseCache.set backendOk now opts st value
    match o.result with
    | .error e =>
      { result := .error e, state := o.state, bgSpawned := false, foreground := true }
    | .ok _ =>
      { result := .ok (if o.ctxResult.isNone then opts.default else o.ctxResult),
        state := o.state, bgSpawned := false, foreground := true }

/-- The synchronous part of `BaseCache._setBackground` (lines 526-535): when a
refresh is already registered under `getOrSettingStale`, do nothing; otherwise
register `true` and schedule the background job. Returns whether a job was
spawned, paired with the updated state. -/
def BaseCache._setBackground {α : Type} (st : OpState α) : Bool × OpState α :=
  if st.regs.getOrSettingStale then (false, st)
  else (true, { st with regs := { st.regs with getOrSettingStale := true } })

/-- The scheduled background job of `_setBackground` (lines 531-534):
`await this.set(key, value, options).catch(e => {})` followed by deleting the
`getOrSettingStale` entry. The job's rejection is swallowed by the `.catch`;
its effects on the store — a successful write, or the key deletion performed
by `set`'s catch block — remain. The job never returns a value. -/
def BaseCache.runBgJob {α : Type} (backendOk : Bool) (now : Nat)
    (opts : CacheSetOpts α) (value : SetValue α) (st : OpState α) : OpState α :=
  let o := BaseCache.set backendOk now opts st value
  { store := o.state.store, regs := { o.state.regs with getOrSettingStale := false } }

/-- `BaseCache._getOrSetStale` (lines 549-594): bypass and `forceUpdate`
short-circuits, then the stale-while-revalidate decision. `generateInBg` is
`some false` (foreground), `some true` (background) or `none` (fresh hit, no
recompute), mirroring the source's `false` / `true` / `null`. -/
def BaseCache._getOrSetStale {α : Type} (bypassed readOk backendOk : Bool)
    (now : Nat) (opts : CacheSetOpts α) (value : SetValue α) (st : OpState α) :
    OpOutcome α :=
  if bypassed then
    { result := _withDefaultOpts opts (evalDirect value), state := st,
      bgSpawned := false, foreground := false }
  else if opts.forceUpdate then
    BaseCache._setWithCheck backendOk now opts value st
  else
    let gs := BaseCache.getStale readOk now opts.staleTTL opts none st
    match gs.result with
    | .error e =>
      { result := .error e, state := gs.state, bgSpawned := false, foreground := false }
    | .ok existing =>
      let generateInBg : Option Bool :=
        if existing.isNone then
          (if opts.requireResult != false || opts.freshResult then some false else some true)
        else if gs.isStale then
          (if opts.freshResult then some false else some true)
        else none
      match generateInBg with
      | some false => BaseCache._setWithCheck backendOk now opts value gs.state
      | some true =>
        let sb := BaseCache._setBackground gs.state
        { result := .ok (if existing.isNone then opts.default else existing),
          state := sb.2, bgSpawned := sb.1, foreground := false }
      | none =>
        { result := .ok (if existing.isNone then opts.default else existing),
          state := gs.state, bgSpawned := false, foreground := false }

/-- `BaseCache.getOrSet` (lines 495-524): the `staleTTL` route, the
`getOrSetting` single-flight join, the bypass and `forceUpdate`
short-circuits, and the plain `_getOrSet` path. The `_getOrSet` promise is
registered under `getOrSetting` before being awaited (lines 519-520); the
`DELETE` on line 522 runs only when the await resolves, so a rejection leaves
the settled rejected promise registered. -/
def BaseCache.getOrSet {α : Type} (bypassed readOk backendOk : Bool) (now : Nat)
    (opts : CacheSetOpts α) (value : SetValue α) (st : OpState α) : OpOutcome α :=
  if opts.staleTTL != 0 then
    BaseCache._getOrSetStale bypassed readOk backendOk now opts value st
  else
    match st.regs.getOrSetting with
    | some p =>
      { result := _withDefaultOpts opts p, state := st,
        bgSpawned := false, foreground := false }
    | none =>
      if bypassed then
        { result := _withDefaultOpts opts (evalDirect value), state := st,
          bgSpawned := false, foreground := false }
      else if opts.forceUpdate then
        BaseCache._setWithCheck backendOk now opts value st
      else
        let r := BaseCache._getOrSet readOk backendOk now opts value st
        match r.1 with
        | .ok v =>
          { result := .ok v,
            state := { r.2 with regs := { r.2.regs with getOrSetting := none } },
            bgSpawned := false, foreground := false }
        | .error e =>
          { result := .error e,
            state := { r.2 with regs := { r.2.regs with getOrSetting := some (.error e) } },
            bgSpawned := false, foreground := false }

/-- `FileCacheBackend.touch` for one key (part_001 lines 121-132): re-read the
entry and, when present, rewrite it with the same value and the overridden
`c`/`t` fields; JS `??` means an explicit 0 does override, and only a missing
field falls back to the existing one. A missing entry is skipped. -/
def FileCacheBackend.touch {α : Type} (tNew cNew : Option Nat)
    (entry : Option (CacheValue α)) : Option (CacheValue α) :=
  match entry with
  | none => none
  | some val => some { v := val.v, t := tNew.getD val.t, c := cNew.getD val.c }

/-- `BaseCache._markStale` on one entry (lines 288-296): touch with `{c: 0}`
and `t` not overridden. -/
def BaseCache.markStaleEntry {α : Type} (entry : Option (CacheValue α)) :
    Option (CacheValue α) :=
  FileCacheBackend.touch none (some 0) entry

/-! ## Single-flight model of N concurrent plain `getOrSet` calls

BaseCache.js runs on a single-threaded cooperative scheduler: between two
`await` suspension points code runs atomically. In `getOrSet` (lines
495-524) the registry check (line 500), the creation of the `_getOrSet`
promise (line 519, whose body suspends at the backend read inside `getStale`
before control returns), and the registration (line 520) all run inside one
such atomic segment, so between check and registration no other caller can
run. The model below replays N concurrent callers under that atomicity: each
caller either finds a registered promise and joins it (line 505) or becomes
the owner who registers its own computation; all callers arrive before the
owner's computation settles (that is what "concurrent" means in the claim),
and `complete` then resolves everyone.
-/

/-- Parameters of one dogpile scenario: what the producer resolves to
(`none` = it resolves to `undefined`), `options.default`, and
`options.process` (a pure transform; no claim combines a throwing transform
with concurrency). -/
structure DogpileRun (α : Type) where
  fnVal : Option α
  dflt : Option α
  process : Option (α → α)

/-- `opts.process ? opts.process(v) : v` for the pure transform. -/
def DogpileRun.applyProcess {α : Type} (run : DogpileRun α) (v : α) : α :=
  match run.process with
  | none => v
  | some p => p v

/-- The promise registered under `getOrSetting` (line 520), described by its
owner, its eventual resolved value, and the value its `set` writes to the
store when it settles. -/
structure InFlight (α : Type) where
  owner : Nat
  promiseVal : Option α
  willStore : Option α

/-- Global state of the dogpile scenario: the registered promise if any, the
callers waiting on it, the store content for the key, how often the producer
has been invoked, and the results resolved so far. -/
structure DogpileState (α : Type) where
  inflight : Option (InFlight α)
  waiters : List Nat
  store : Option α
  fnCalls : Nat
  results : List (Nat × Option α)

/-- Initial state of the claim's scenario: no entry for the key, nothing in
flight. -/
def DogpileState.init (α : Type) : DogpileState α :=
  { inflight := none, waiters := [], store := none, fnCalls := 0, results := [] }

/-- One caller entering `getOrSet` (lines 500-521). A caller either joins the
registered promise (line 505) or becomes its owner:
* owner on a store hit: `_getOrSet` will resolve to the transformed stored
  value without invoking the producer;
* owner on a miss: the producer is invoked (exactly here), a defined result
  is written by `set` and the processed `ctx.result` is resolved; an
  undefined result makes `set` log and return `false`, so `_getOrSet`
  resolves `options.default` and nothing is written. -/
def DogpileRun.arrive {α : Type} (run : DogpileRun α) (s : DogpileState α)
    (i : Nat) : DogpileState α :=
  match s.inflight with
  | some _ => { s with waiters := i :: s.waiters }
  | none =>
    match s.store with
    | some v =>
      { s with inflight := some ⟨i, some (run.applyProcess v), none⟩ }
    | none =>
      match run.fnVal with
      | some x =>
        { s with
            fnCalls := s.fnCalls + 1
            inflight := some ⟨i, some (run.applyProcess x), some x⟩ }
      | none =>
        { s with
            fnCalls := s.fnCalls + 1
            inflight := some ⟨i, run.dflt, none⟩ }

/-- `_withDefaultOpts(settingPromise, options)` (line 505), applied by each
waiting caller when the registered promise resolves. -/
def DogpileRun.resolveWaiter {α : Type} (run : DogpileRun α) (r : Option α) :
    Option α :=
  match r with
  | none => run.dflt
  | some v => some (run.applyProcess v)

/-- The registered promise settles: the owner's `set` publishes `willStore`,
the `getOrSetting` entry is deleted (line 522), the owner resolves the
promise value directly (line 523) and every waiter resolves through
`_withDefaultOpts`. -/
def DogpileRun.complete {α : Type} (run : DogpileRun α) (s : DogpileState α) :
    DogpileState α :=
  match s.inflight with
  | none => s
  | some f =>
    { inflight := none, waiters := [],
      store := match f.willStore with | some x => some x | none => s.store,
      fnCalls := s.fnCalls,
      results := (f.owner, f.promiseVal)
        :: s.waiters.map (fun j => (j, run.resolveWaiter f.promiseVal)) ++ s.results }

/-- N concurrent callers: all arrive (in the given order) while the first
caller's computation is pending, then the computation settles. -/
def DogpileRun.run {α : Type} (run : DogpileRun α) (callers : List Nat) :
    DogpileState α :=
  run.complete (callers.foldl run.arrive (DogpileState.init α))

/-- The value every caller of the claim's scenario resolves to: the
producer's value, or `options.default` when the producer resolved
`undefined`. -/
def DogpileRun.expected {α : Type} (run : DogpileRun α) : Option α :=
  match run.fnVal with
  | some x => some x
  | none => run.dflt

/-! ## Theorems settling the claims -/

/-- Claim C7: the backend write compresses the serialized envelope exactly
when its byte length is at least 256; on read, buffers shorter than 64 bytes
are returned raw with no magic-number check, and buffers of at least 64
bytes are decompressed exactly when their first four bytes are the zstd
magic number `0x28 0xB5 0x2F 0xFD`. -/
theorem compress_decompress_thresholds (c d : List Nat → List Nat) (b : List Nat) :
    (compressMaybe c b = if 256 ≤ b.length then c b else b) ∧
    (b.length < 64 → decompressMaybe d b = b) ∧
    (64 ≤ b.length → decompressMaybe d b = if zstdMagicMatch b then d b else b) := by
  refine ⟨?_, fun h => ?_, fun h => ?_⟩
  · unfold compressMaybe
    rcases Nat.lt_or_ge b.length 256 with h | h
    · rw [if_pos h, if_neg (by omega)]
    · rw [if_neg (by omega), if_pos h]
  · unfold decompressMaybe
    rw [if_pos h]
  · unfold decompressMaybe
    rw [if_neg (by omega)]

/-- Witness for C7 at concrete buffers: a 3-byte buffer is returned raw and
unchecked, and a 64-byte buffer carrying the magic header is decompressed. -/
theorem compress_decompress_thresholds_witness :
    decompressMaybe (fun _ => [9]) [1, 2, 3] = [1, 2, 3] ∧
    decompressMaybe (fun _ => [9])
      (0x28 :: 0xB5 :: 0x2F :: 0xFD :: List.replicate 60 0) = [9] := by
  constructor
  · exact (compress_decompress_thresholds (fun x => x) (fun _ => [9]) [1, 2, 3]).2.1
      (by decide)
  · have h := (compress_decompress_thresholds (fun x => x) (fun _ => [9])
      (0x28 :: 0xB5 :: 0x2F :: 0xFD :: List.replicate 60 0)).2.2 (by decide)
    rw [h, if_pos (by decide)]

/-- Helper: the UTF-8 encoding of a string beginning with the brace
character begins with the byte 0x7B. -/
theorem utf8Encode_brace (l : List Char) :
    utf8Encode ('\x7b' :: l) = 0x7B :: utf8Encode l := by
  show utf8EncodeChar '\x7b' ++ utf8Encode l = 0x7B :: utf8Encode l
  have h : utf8EncodeChar '\x7b' = [0x7B] := by decide
  rw [h]
  rfl

/-- Claim C10: an envelope stored uncompressed by the backend (serialized
size below 256 bytes) begins with the byte 0x7B — the brace that opens every
`JSON.stringify`d object — which differs from the magic number's first byte
0x28, so the read-side sniff never matches such a self-written payload and
`decompressMaybe` returns it untouched. -/
theorem raw_payload_magic_mismatch (compress decompress : List Nat → List Nat)
    (t c v : Json)
    (hlen : (utf8Encode (Json.stringify (envelope t c v))).length < 256) :
    FileCacheBackend.setBuffer compress (envelope t c v)
      = utf8Encode (Json.stringify (envelope t c v)) ∧
    (utf8Encode (Json.stringify (envelope t c v))).headD 0 = 0x7B ∧
    (0x7B : Nat) ≠ 0x28 ∧
    zstdMagicMatch (utf8Encode (Json.stringify (envelope t c v))) = false ∧
    decompressMaybe decompress (utf8Encode (Json.stringify (envelope t c v)))
      = utf8Encode (Json.stringify (envelope t c v)) := by
  have hshape : Json.stringify (envelope t c v)
      = '\x7b' :: (JsonFields.stringify
          (.cons ['t'] t (.cons ['c'] c (.cons ['v'] v .nil))) ++ ['\x7d']) := rfl
  have hb : utf8Encode (Json.stringify (envelope t c v))
      = 0x7B :: utf8Encode (JsonFields.stringify
          (.cons ['t'] t (.cons ['c'] c (.cons ['v'] v .nil))) ++ ['\x7d']) := by
    rw [hshape, utf8Encode_brace]
  have hmagic : zstdMagicMatch (utf8Encode (Json.stringify (envelope t c v))) = false := by
    rw [hb]
    simp [zstdMagicMatch]
  refine ⟨?_, ?_, by decide, hmagic, ?_⟩
  · unfold FileCacheBackend.setBuffer compressMaybe
    rw [if_pos hlen]
  · rw [hb]
    rfl
  · simp [decompressMaybe, hmagic]

/-- Witness for C10: the concrete envelope `(t := 1, c := 2, v := 3)`
serializes to 19 bytes, is stored raw, and survives `decompressMaybe`
untouched. -/
theorem raw_payload_magic_mismatch_witness :
    FileCacheBackend.setBuffer (fun _ => [9]) (envelope (.num 1) (.num 2) (.num 3))
      = utf8Encode (Json.stringify (envelope (.num 1) (.num 2) (.num 3))) ∧
    decompressMaybe (fun _ => [9])
      (utf8Encode (Json.stringify (envelope (.num 1) (.num 2) (.num 3))))
      = utf8Encode (Json.stringify (envelope (.num 1) (.num 2) (.num 3))) := by
  have h := raw_payload_magic_mismatch (fun _ => [9]) (fun _ => [9])
    (.num 1) (.num 2) (.num 3) (by decide)
  exact ⟨h.1, h.2.2.2.2⟩

/-- Helper: splitting a key that starts with `n` copies of `'a'` followed by
the separator peels off the whole `'a'`-block as one segment. -/
theorem splitVSlash_skip (n : Nat) (rest : List Char) :
    ∀ acc, splitVSlash (List.replicate n 'a' ++ '\x0b' :: '/' :: rest) acc
      = (acc.reverse ++ List.replicate n 'a') :: splitVSlash rest [] := by
  induction n with
  | zero => intro acc; simp [splitVSlash]
  | succ n ih =>
    intro acc
    rw [List.replicate_succ, List.cons_append]
    have step : splitVSlash ('a' :: (List.replicate n 'a' ++ '\x0b' :: '/' :: rest)) acc
        = splitVSlash (List.replicate n 'a' ++ '\x0b' :: '/' :: rest) ('a' :: acc) := by
      simp [splitVSlash]
    rw [step, ih ('a' :: acc)]
    simp [List.replicate_succ]

/-- Claim C8 counterexample: the class-based `FileCacheBackend.keyToPath`
(part_001 lines 31-36) has no whole-key fallback above 2048 characters. On
the 2052-character key made of 2049 `a`s, the separator and `x`, it hashes
only the final segment and keeps the 2049-character first segment verbatim,
so the resulting path stays longer than 2048 characters no matter what the
digest returns. -/
theorem keyToPath_long_key_counterexample :
    (List.replicate 2049 'a' ++ '\x0b' :: '/' :: ['x']).length > 2048 ∧
    FileCacheBackend.keyToPath (fun _ => List.replicate 10 'h') ['c']
        (List.replicate 2049 'a' ++ '\x0b' :: '/' :: ['x'])
      = 'c' :: '/' :: (List.replicate 2049 'a' ++ '/' :: List.replicate 10 'h') ∧
    (FileCacheBackend.keyToPath (fun _ => List.replicate 10 'h') ['c']
        (List.replicate 2049 'a' ++ '\x0b' :: '/' :: ['x'])).length > 2048 := by
  have hpath : FileCacheBackend.keyToPath (fun _ => List.replicate 10 'h') ['c']
      (List.replicate 2049 'a' ++ '\x0b' :: '/' :: ['x'])
      = 'c' :: '/' :: (List.replicate 2049 'a' ++ '/' :: List.replicate 10 'h') := by
    simp only [FileCacheBackend.keyToPath]
    rw [splitVSlash_skip 2049 ['x'] []]
    simp only [splitVSlash, mapLast, joinSlash, List.reverse_nil, List.nil_append,
      List.singleton_append]
  refine ⟨?_, hpath, ?_⟩
  · simp only [List.length_append, List.length_replicate, List.length_cons,
      List.length_nil]
    omega
  · rw [hpath]
    simp only [List.length_cons, List.length_append, List.length_replicate]
    omega

/-- Claim C8 (amended): the whole-key fallback exists in the object-literal
backend of part_000 — `FileCache.backend.keyToPath` replaces any key longer
than 2048 characters by its whole-key digest, bounding the path length by
the cache-directory length plus the digest length — while the class-based
`FileCacheBackend.keyToPath` of part_001 has no such fallback (see the
counterexample). -/
theorem keyToPath_long_key_amended (sha1 : List Char → List Char)
    (cacheDir key : List Char) (h : key.length > 2048) :
    FileCacheObjectBackend.keyToPath sha1 cacheDir key
      = cacheDir ++ '/' :: sha1 key ∧
    (FileCacheObjectBackend.keyToPath sha1 cacheDir key).length
      = cacheDir.length + 1 + (sha1 key).length := by
  have h1 : FileCacheObjectBackend.keyToPath sha1 cacheDir key
      = cacheDir ++ '/' :: sha1 key := by
    simp only [FileCacheObjectBackend.keyToPath]
    rw [if_pos h]
  refine ⟨h1, ?_⟩
  rw [h1]
  simp only [List.length_append, List.length_cons]
  omega

/-- Witness for C8 at a concrete long key: 2049 `a`s exceed the threshold
and the object-literal backend's path is the digest under the cache
directory. -/
theorem keyToPath_long_key_amended_witness :
    (List.replicate 2049 'a').length > 2048 ∧
    FileCacheObjectBackend.keyToPath (fun _ => ['h']) ['c'] (List.replicate 2049 'a')
      = ['c'] ++ '/' :: ['h'] := by
  have h : (List.replicate 2049 'a').length > 2048 := by
    rw [List.length_replicate]
    omega
  exact ⟨h, (keyToPath_long_key_amended (fun _ => ['h']) ['c']
    (List.replicate 2049 'a') h).1⟩

/-- Claim C1 counterexample: a plain `getOrSet` whose producer throws rejects
with the `getOrSetting` entry still present — the `DELETE` on line 522 is
skipped when the `await` on line 521 throws — so later callers forever share
the settled rejected promise. -/
theorem getOrSetting_leak_on_rejection :
    (BaseCache.getOrSet (α := Nat) false true true 1000 (CacheSetOpts.plain Nat)
        .fnThrows ⟨none, Regs.empty Nat⟩).result = .error () ∧
    (BaseCache.getOrSet (α := Nat) false true true 1000 (CacheSetOpts.plain Nat)
        .fnThrows ⟨none, Regs.empty Nat⟩).state.regs.getOrSetting
      = some (.error ()) := by
  exact ⟨rfl, rfl⟩

/-- Claim C3 counterexample: `markStale` on an entry with `ttl = 100` at
`now = 1000` rewrites `createdAt` to 0, which makes the entry *expired*; a
plain `get` then lazily deletes it and returns the default instead of the
old value 42. -/
theorem markStale_expires_positive_ttl :
    BaseCache.markStaleEntry (α := Nat) (some ⟨some 42, 900, 100⟩)
      = some ⟨some 42, 0, 100⟩ ∧
    (BaseCache.get true 1000 (CacheSetOpts.plain Nat) none
        ⟨BaseCache.markStaleEntry (some ⟨some 42, 900, 100⟩), Regs.empty Nat⟩).result
      = .ok none ∧
    (BaseCache.get true 1000 (CacheSetOpts.plain Nat) none
        ⟨BaseCache.markStaleEntry (some ⟨some 42, 900, 100⟩), Regs.empty Nat⟩).result
      ≠ .ok (some 42) ∧
    (BaseCache.get true 1000 (CacheSetOpts.plain Nat) none
        ⟨BaseCache.markStaleEntry (some ⟨some 42, 900, 100⟩),
          Regs.empty Nat⟩).state.store = none := by
  refine ⟨rfl, rfl, ?_, rfl⟩
  decide

/-- Claim C4 counterexample: when the backend write throws (`backendOk =
false`), `_set` swallows the error, so `set` of the plain value 5 resolves
`true` — reported as success, nothing re-thrown — while nothing was
written. -/
theorem set_backend_failure_silent_success :
    (BaseCache.set (α := Nat) false 1000 (CacheSetOpts.plain Nat)
        ⟨none, Regs.empty Nat⟩ (.plain 5)).result = .ok true ∧
    (BaseCache.set (α := Nat) false 1000 (CacheSetOpts.plain Nat)
        ⟨none, Regs.empty Nat⟩ (.plain 5)).result ≠ .error () ∧
    (BaseCache.set (α := Nat) false 1000 (CacheSetOpts.plain Nat)
        ⟨none, Regs.empty Nat⟩ (.plain 5)).state.store = none := by
  refine ⟨rfl, ?_, rfl⟩
  decide

/-- Claim C5 counterexample: with `staleTTL` set, `requireResult := false`,
an absent entry and `freshResult := true`, `_getOrSetStale` computes in the
foreground and resolves the fresh value 7, not `options.default` (0), and
spawns no background job — `freshResult` overrides the claimed behaviour. -/
theorem requireResult_false_freshResult_foreground :
    (BaseCache._getOrSetStale (α := Nat) false true true 1000
        { CacheSetOpts.plain Nat with
            staleTTL := 100
            requireResult := false
            freshResult := true
            default := some 0 }
        (.fn (.plain 7)) ⟨none, Regs.empty Nat⟩).result = .ok (some 7) ∧
    (BaseCache._getOrSetStale (α := Nat) false true true 1000
        { CacheSetOpts.plain Nat with
            staleTTL := 100
            requireResult := false
            freshResult := true
            default := some 0 }
        (.fn (.plain 7)) ⟨none, Regs.empty Nat⟩).result ≠ .ok (some 0) ∧
    (BaseCache._getOrSetStale (α := Nat) false true true 1000
        { CacheSetOpts.plain Nat with
            staleTTL := 100
            requireResult := false
            freshResult := true
            default := some 0 }
        (.fn (.plain 7)) ⟨none, Regs.empty Nat⟩).bgSpawned = false ∧
    (BaseCache._getOrSetStale (α := Nat) false true true 1000
        { CacheSetOpts.plain Nat with
            staleTTL := 100
            requireResult := false
            freshResult := true
            default := some 0 }
        (.fn (.plain 7)) ⟨none, Regs.empty Nat⟩).foreground = true := by
  refine ⟨rfl, ?_, rfl, rfl⟩
  decide

/-- Claim C6 counterexample: a stale read returns the cached 1 and spawns a
background job; when that job's producer throws, `set`'s catch block deletes
the key, so the failed refresh's observable effect is the *deletion* of the
previously cached entry — not merely "a later successful set". -/
theorem background_failure_deletes_entry :
    (BaseCache._getOrSetStale (α := Nat) false true true 1000
        { CacheSetOpts.plain Nat with staleTTL := 100 } .fnThrows
        ⟨some ⟨some 1, 0, 0⟩, Regs.empty Nat⟩).result = .ok (some 1) ∧
    (BaseCache._getOrSetStale (α := Nat) false true true 1000
        { CacheSetOpts.plain Nat with staleTTL := 100 } .fnThrows
        ⟨some ⟨some 1, 0, 0⟩, Regs.empty Nat⟩).bgSpawned = true ∧
    (BaseCache.runBgJob true 1000 { CacheSetOpts.plain Nat with staleTTL := 100 }
        .fnThrows
        (BaseCache._getOrSetStale (α := Nat) false true true 1000
          { CacheSetOpts.plain Nat with staleTTL := 100 } .fnThrows
          ⟨some ⟨some 1, 0, 0⟩, Regs.empty Nat⟩).state).store = none ∧
    (BaseCache.runBgJob true 1000 { CacheSetOpts.plain Nat with staleTTL := 100 }
        .fnThrows
        (BaseCache._getOrSetStale (α := Nat) false true true 1000
          { CacheSetOpts.plain Nat with staleTTL := 100 } .fnThrows
          ⟨some ⟨some 1, 0, 0⟩, Regs.empty Nat⟩).state).regs.getOrSettingStale
      = false := by
  exact ⟨rfl, rfl, rfl, rfl⟩

/-- Claim C9 counterexample: `set` of a pending computation that resolves to
`undefined` performs no write (the stored entry 9 is untouched) but resolves
`true` and logs nothing — it reports success, not the claimed logged
failure. -/
theorem set_resolved_undefined_returns_true :
    (BaseCache.set (α := Nat) true 1000 (CacheSetOpts.plain Nat)
        ⟨some ⟨some 9, 500, 0⟩, Regs.empty Nat⟩ (.promiseOk none)).result
      = .ok true ∧
    (BaseCache.set (α := Nat) true 1000 (CacheSetOpts.plain Nat)
        ⟨some ⟨some 9, 500, 0⟩, Regs.empty Nat⟩ (.promiseOk none)).result
      ≠ .ok false ∧
    (BaseCache.set (α := Nat) true 1000 (CacheSetOpts.plain Nat)
        ⟨some ⟨some 9, 500, 0⟩, Regs.empty Nat⟩ (.promiseOk none)).loggedUndefined
      = false ∧
    (BaseCache.set (α := Nat) true 1000 (CacheSetOpts.plain Nat)
        ⟨some ⟨some 9, 500, 0⟩, Regs.empty Nat⟩ (.promiseOk none)).state.store
      = some ⟨some 9, 500, 0⟩ := by
  refine ⟨rfl, ?_, rfl, rfl⟩
  decide

/-- Claim C4 (amended): failures while resolving the value — a rejecting
promise, a throwing producer, or a throwing `options.process` — reach `set`'s
catch block: the target key is deleted, the `setting` registry entry is
cleared, and the error is re-thrown to the caller. A failing backend write,
however, is caught inside `_set`, so `set` still resolves `true` with the
store unchanged: a backend write failure is silently reported as success,
contrary to the claim's final clause. -/
theorem set_failure_amended {α : Type} (backendOk : Bool) (now : Nat)
    (opts : CacheSetOpts α) (st : OpState α) (v : α) :
    ((BaseCache.set backendOk now opts st .promiseErr).result = .error () ∧
      (BaseCache.set backendOk now opts st .promiseErr).state.store = none ∧
      (BaseCache.set backendOk now opts st .promiseErr).state.regs.setting = none) ∧
    ((BaseCache.set backendOk now opts st .fnThrows).result = .error () ∧
      (BaseCache.set backendOk now opts st .fnThrows).state.store = none ∧
      (BaseCache.set backendOk now opts st .fnThrows).state.regs.setting = none) ∧
    (∀ p, opts.process = some p → p (some v) = .error () →
      (BaseCache.set backendOk now opts st (.plain v)).result = .error () ∧
      (BaseCache.set backendOk now opts st (.plain v)).state.store = none ∧
      (BaseCache.set backendOk now opts st (.plain v)).state.regs.setting = none) ∧
    (backendOk = false → opts.process = none →
      (BaseCache.set backendOk now opts st (.plain v)).result = .ok true ∧
      (BaseCache.set backendOk now opts st (.plain v)).state.store = st.store) := by
  refine ⟨⟨rfl, rfl, rfl⟩, ⟨rfl, rfl, rfl⟩, ?_, ?_⟩
  · intro p hp herr
    simp [BaseCache.set, BaseCache._setBoth, hp, herr]
  · intro hb hp
    subst hb
    simp [BaseCache.set, BaseCache._setBoth, BaseCache._set, hp]

/-- Witness for C4: a throwing `process` makes `set` of the plain value 5
reject and delete the key, while a failing backend write makes the same
`set` resolve `true`. -/
theorem set_failure_amended_witness :
    ((BaseCache.set (α := Nat) true 1000
        { CacheSetOpts.plain Nat with process := some (fun _ => .error ()) }
        ⟨some ⟨some 9, 500, 0⟩, Regs.empty Nat⟩ (.plain 5)).result = .error () ∧
      (BaseCache.set (α := Nat) true 1000
        { CacheSetOpts.plain Nat with process := some (fun _ => .error ()) }
        ⟨some ⟨some 9, 500, 0⟩, Regs.empty Nat⟩ (.plain 5)).state.store = none ∧
      (BaseCache.set (α := Nat) true 1000
        { CacheSetOpts.plain Nat with process := some (fun _ => .error ()) }
        ⟨some ⟨some 9, 500, 0⟩, Regs.empty Nat⟩ (.plain 5)).state.regs.setting
        = none) ∧
    ((BaseCache.set (α := Nat) false 1000 (CacheSetOpts.plain Nat)
        ⟨none, Regs.empty Nat⟩ (.plain 5)).result = .ok true ∧
      (BaseCache.set (α := Nat) false 1000 (CacheSetOpts.plain Nat)
        ⟨none, Regs.empty Nat⟩ (.plain 5)).state.store = none) := by
  constructor
  · exact (set_failure_amended true 1000
      { CacheSetOpts.plain Nat with process := some (fun _ => .error ()) }
      ⟨some ⟨some 9, 500, 0⟩, Regs.empty Nat⟩ 5).2.2.1 _ rfl rfl
  · exact (set_failure_amended false 1000 (CacheSetOpts.plain Nat)
      ⟨none, Regs.empty Nat⟩ 5).2.2.2 rfl rfl

/-- Claim C9 (amended): no undefined value is ever written — the stored entry
is unchanged in every undefined case — but the reported outcome depends on
the route: a directly-passed `undefined`, or a producer returning it
synchronously, is logged and reported as `false`; a pending computation
resolving to `undefined` is not logged and `set` resolves `true`. -/
theorem set_undefined_amended {α : Type} (backendOk : Bool) (now : Nat)
    (opts : CacheSetOpts α) (st : OpState α) :
    ((BaseCache.set backendOk now opts st .undef).result = .ok false ∧
      (BaseCache.set backendOk now opts st .undef).loggedUndefined = true ∧
      (BaseCache.set backendOk now opts st .undef).state = st) ∧
    ((BaseCache.set backendOk now opts st (.fn .undef)).result = .ok false ∧
      (BaseCache.set backendOk now opts st (.fn .undef)).loggedUndefined = true ∧
      (BaseCache.set backendOk now opts st (.fn .undef)).state = st) ∧
    ((BaseCache.set backendOk now opts st (.promiseOk none)).result = .ok true ∧
      (BaseCache.set backendOk now opts st (.promiseOk none)).loggedUndefined
        = false ∧
      (BaseCache.set backendOk now opts st (.promiseOk none)).state.store
        = st.store) := by
  exact ⟨⟨rfl, rfl, rfl⟩, ⟨rfl, rfl, rfl⟩, ⟨rfl, rfl, rfl⟩⟩

/-- Claim C3 (amended): `markStale` rewrites the entry's `createdAt` to 0
while preserving its value and ttl. Provided the rewritten entry survives the
expiry check — its ttl is 0 (never expires) or at least `now` — and
`staleTTL < now`, the next stale-while-revalidate `getOrSet` (with
`freshResult` unset) sees it as stale, returns the old value and triggers a
background regeneration, and a plain `get` still returns the old value. For
an entry with `0 < ttl < now` the rewrite instead makes the entry expired,
so a plain `get` returns the default — see the counterexample. -/
theorem markStale_amended {α : Type} (x : α) (c0 t0 now : Nat)
    (opts : CacheSetOpts α) (value : SetValue α)
    (hjson : opts.fromJSON = none) (hproc : opts.process = none)
    (hnoexp : t0 = 0 ∨ now ≤ t0)
    (hstl : opts.staleTTL ≠ 0) (hlt : opts.staleTTL < now)
    (hfresh : opts.freshResult = false) (hforce : opts.forceUpdate = false) :
    BaseCache.markStaleEntry (some ⟨some x, c0, t0⟩) = some ⟨some x, 0, t0⟩ ∧
    (BaseCache.get true now opts none
      ⟨some ⟨some x, 0, t0⟩, Regs.empty α⟩).result = .ok (some x) ∧
    (BaseCache._getOrSetStale false true true now opts value
      ⟨some ⟨some x, 0, t0⟩, Regs.empty α⟩).result = .ok (some x) ∧
    (BaseCache._getOrSetStale false true true now opts value
      ⟨some ⟨some x, 0, t0⟩, Regs.empty α⟩).bgSpawned = true := by
  have hexp : isExpired now (⟨some x, 0, t0⟩ : CacheValue α) = false := by
    rcases hnoexp with h | h
    · subst h
      simp [isExpired]
    · simp only [isExpired, Bool.and_eq_false_iff]
      right
      simp only [decide_eq_false_iff_not]
      omega
  have hst : setCtxStale opts.staleTTL now (⟨some x, 0, t0⟩ : CacheValue α) = true := by
    simp only [setCtxStale, Bool.and_eq_true, bne_iff_ne, ne_eq, decide_eq_true_eq]
    exact ⟨hstl, by omega⟩
  have hgs : BaseCache.getStale true now opts.staleTTL opts none
      ⟨some ⟨some x, 0, t0⟩, ⟨none, none, none, false⟩⟩
      = { result := .ok (some x), isStale := true,
          state := ⟨some ⟨some x, 0, t0⟩, ⟨none, none, none, false⟩⟩ } := by
    simp [BaseCache.getStale, BaseCache._get, hexp, hst,
      getStaleTransform, hjson, hproc]
  have hgs0 : BaseCache.getStale true now 0 opts none
      ⟨some ⟨some x, 0, t0⟩, ⟨none, none, none, false⟩⟩
      = { result := .ok (some x), isStale := false,
          state := ⟨some ⟨some x, 0, t0⟩, ⟨none, none, none, false⟩⟩ } := by
    simp [BaseCache.getStale, BaseCache._get, hexp,
      getStaleTransform, hjson, hproc, setCtxStale]
  refine ⟨rfl, ?_, ?_⟩
  · simp only [Regs.empty]
    simp [BaseCache.get, hgs0]
  · simp only [Regs.empty]
    simp [BaseCache._getOrSetStale, hforce, hgs, hfresh, BaseCache._setBackground]

/-- Witness for C3 at a never-expiring entry: `ttl = 0`, `createdAt = 900`,
`now = 1000`, `staleTTL = 100`, value 5, producer 7. -/
theorem markStale_amended_witness :
    BaseCache.markStaleEntry (α := Nat) (some ⟨some 5, 900, 0⟩)
      = some ⟨some 5, 0, 0⟩ ∧
    (BaseCache.get true 1000 { CacheSetOpts.plain Nat with staleTTL := 100 } none
      ⟨some ⟨some 5, 0, 0⟩, Regs.empty Nat⟩).result = .ok (some 5) ∧
    (BaseCache._getOrSetStale false true true 1000
      { CacheSetOpts.plain Nat with staleTTL := 100 } (.fn (.plain 7))
      ⟨some ⟨some 5, 0, 0⟩, Regs.empty Nat⟩).result = .ok (some 5) ∧
    (BaseCache._getOrSetStale false true true 1000
      { CacheSetOpts.plain Nat with staleTTL := 100 } (.fn (.plain 7))
      ⟨some ⟨some 5, 0, 0⟩, Regs.empty Nat⟩).bgSpawned = true := by
  exact markStale_amended 5 900 0 1000
    { CacheSetOpts.plain Nat with staleTTL := 100 } (.fn (.plain 7))
    rfl rfl (Or.inl rfl) (by decide) (by decide) rfl rfl

/-- Claim C5 (amended): with a `staleTTL` configured, `requireResult` set to
false, no bypass or `forceUpdate`, an absent entry, and `freshResult` *not*
set, the call resolves `options.default` immediately, registers one
background refresh, the background job runs the producer and stores its
result, and a failing job is swallowed and still clears the refresh entry.
With `freshResult : true` the producer instead runs in the foreground — the
claim's "regardless of the other options" fails (see the counterexample). -/
theorem requireResult_false_amended {α : Type} (backendOk : Bool) (now : Nat)
    (opts : CacheSetOpts α) (value : SetValue α) (x : α)
    (hstl : opts.staleTTL ≠ 0) (hreq : opts.requireResult = false)
    (hfresh : opts.freshResult = false) (hforce : opts.forceUpdate = false) :
    ((BaseCache.getOrSet false true backendOk now opts value
        ⟨none, Regs.empty α⟩).result = .ok opts.default ∧
      (BaseCache.getOrSet false true backendOk now opts value
        ⟨none, Regs.empty α⟩).bgSpawned = true ∧
      (BaseCache.getOrSet false true backendOk now opts value
        ⟨none, Regs.empty α⟩).foreground = false ∧
      (BaseCache.getOrSet false true backendOk now opts value
        ⟨none, Regs.empty α⟩).state.regs.getOrSettingStale = true) ∧
    (opts.process = none →
      (BaseCache.runBgJob true now opts (.fn (.plain x))
          ⟨none, ⟨none, none, none, true⟩⟩).store = some ⟨some x, now, opts.ttl⟩) ∧
    (∀ st2 : OpState α,
      (BaseCache.runBgJob backendOk now opts .fnThrows st2).regs.getOrSettingStale
        = false) := by
  have hgs : BaseCache.getStale true now opts.staleTTL opts none
      ⟨none, ⟨none, none, none, false⟩⟩
      = { result := .ok none, isStale := false,
          state := ⟨none, ⟨none, none, none, false⟩⟩ } := by
    simp [BaseCache.getStale, BaseCache._get, getStaleTransform]
  have hroute : (opts.staleTTL != 0) = true := by
    simp [hstl]
  refine ⟨?_, ?_, fun st2 => rfl⟩
  · simp only [Regs.empty]
    simp [BaseCache.getOrSet, hroute, BaseCache._getOrSetStale, hforce, hgs, hreq,
      hfresh, BaseCache._setBackground]
  · intro hproc
    simp [BaseCache.runBgJob, BaseCache.set, BaseCache._setBoth, BaseCache._set,
      hproc]

/-- Witness for C5: absent entry, `staleTTL = 100`, `requireResult := false`,
default 0, producer 7 — the call resolves 0 and the background job stores
7. -/
theorem requireResult_false_amended_witness :
    ((BaseCache.getOrSet (α := Nat) false true true 1000
        { CacheSetOpts.plain Nat with
            staleTTL := 100
            requireResult := false
            default := some 0 }
        (.fn (.plain 7)) ⟨none, Regs.empty Nat⟩).result = .ok (some 0) ∧
      (BaseCache.getOrSet (α := Nat) false true true 1000
        { CacheSetOpts.plain Nat with
            staleTTL := 100
            requireResult := false
            default := some 0 }
        (.fn (.plain 7)) ⟨none, Regs.empty Nat⟩).bgSpawned = true ∧
      (BaseCache.getOrSet (α := Nat) false true true 1000
        { CacheSetOpts.plain Nat with
            staleTTL := 100
            requireResult := false
            default := some 0 }
        (.fn (.plain 7)) ⟨none, Regs.empty Nat⟩).foreground = false ∧
      (BaseCache.getOrSet (α := Nat) false true true 1000
        { CacheSetOpts.plain Nat with
            staleTTL := 100
            requireResult := false
            default := some 0 }
        (.fn (.plain 7)) ⟨none, Regs.empty Nat⟩).state.regs.getOrSettingStale
        = true) ∧
    ((BaseCache.runBgJob (α := Nat) true 1000
        { CacheSetOpts.plain Nat with
            staleTTL := 100
            requireResult := false
            default := some 0 }
        (.fn (.plain 7)) ⟨none, ⟨none, none, none, true⟩⟩).store
      = some ⟨some 7, 1000, 0⟩) ∧
    (∀ st2 : OpState Nat,
      (BaseCache.runBgJob true 1000
        { CacheSetOpts.plain Nat with
            staleTTL := 100
            requireResult := false
            default := some 0 }
        .fnThrows st2).regs.getOrSettingStale = false) := by
  have h := requireResult_false_amended (α := Nat) true 1000
    { CacheSetOpts.plain Nat with
        staleTTL := 100
        requireResult := false
        default := some 0 }
    (.fn (.plain 7)) 7 (by decide) rfl rfl rfl
  exact ⟨h.1, h.2.1 rfl, h.2.2⟩

/-- Claim C6 (amended): for a present, non-expired, stale entry (and
`freshResult` not set, no bypass or `forceUpdate`), a stale-while-revalidate
`getOrSet` returns the stale cached value immediately and spawns a background
regeneration exactly when no refresh is already registered (the
`getOrSettingStale` flag deduplicates repeated calls); the background job's
rejection is swallowed and the job always clears the flag. However, a failed
regeneration is not effect-free: `set`'s catch block deletes the cached
entry (see the counterexample), so "its only observable effect is a later
successful set" holds only for successful jobs. -/
theorem stale_background_amended {α : Type} (backendOk : Bool) (now : Nat)
    (opts : CacheSetOpts α) (value : SetValue α) (val : CacheValue α) (x : α)
    (goss : Bool)
    (hstl : opts.staleTTL ≠ 0) (hfresh : opts.freshResult = false)
    (hforce : opts.forceUpdate = false)
    (hv : val.v = some x) (hnoexp : isExpired now val = false)
    (hisst : setCtxStale opts.staleTTL now val = true)
    (hjson : opts.fromJSON = none) (hproc : opts.process = none) :
    ((BaseCache.getOrSet false true backendOk now opts value
        ⟨some val, ⟨none, none, none, goss⟩⟩).result = .ok (some x) ∧
      (BaseCache.getOrSet false true backendOk now opts value
        ⟨some val, ⟨none, none, none, goss⟩⟩).foreground = false ∧
      (BaseCache.getOrSet false true backendOk now opts value
        ⟨some val, ⟨none, none, none, goss⟩⟩).bgSpawned = !goss ∧
      (BaseCache.getOrSet false true backendOk now opts value
        ⟨some val, ⟨none, none, none, goss⟩⟩).state.regs.getOrSettingStale
        = true) ∧
    (∀ (st2 : OpState α) (value2 : SetValue α),
      (BaseCache.runBgJob backendOk now opts value2 st2).regs.getOrSettingStale
        = false) := by
  have hroute : (opts.staleTTL != 0) = true := by
    simp [hstl]
  have hgs : BaseCache.getStale true now opts.staleTTL opts none
      ⟨some val, ⟨none, none, none, goss⟩⟩
      = { result := .ok (some x), isStale := true,
          state := ⟨some val, ⟨none, none, none, goss⟩⟩ } := by
    simp [BaseCache.getStale, BaseCache._get, hnoexp, hisst,
      getStaleTransform, hjson, hproc, hv]
  refine ⟨?_, ?_⟩
  · cases goss <;>
      simp [BaseCache.getOrSet, hroute, BaseCache._getOrSetStale, hforce, hgs,
        hfresh, BaseCache._setBackground]
  · intro st2 value2
    rfl

/-- Witness for C6: stale entry 1 (created at 0, never-expiring) at
`now = 1000` with `staleTTL = 100`: the first call returns 1 and spawns the
refresh, a second call while the flag is set spawns none, and the job clears
the flag. -/
theorem stale_background_amended_witness :
    ((BaseCache.getOrSet (α := Nat) false true true 1000
        { CacheSetOpts.plain Nat with staleTTL := 100 } (.fn (.plain 2))
        ⟨some ⟨some 1, 0, 0⟩, ⟨none, none, none, false⟩⟩).result = .ok (some 1) ∧
      (BaseCache.getOrSet (α := Nat) false true true 1000
        { CacheSetOpts.plain Nat with staleTTL := 100 } (.fn (.plain 2))
        ⟨some ⟨some 1, 0, 0⟩, ⟨none, none, none, false⟩⟩).foreground = false ∧
      (BaseCache.getOrSet (α := Nat) false true true 1000
        { CacheSetOpts.plain Nat with staleTTL := 100 } (.fn (.plain 2))
        ⟨some ⟨some 1, 0, 0⟩, ⟨none, none, none, false⟩⟩).bgSpawned = !false ∧
      (BaseCache.getOrSet (α := Nat) false true true 1000
        { CacheSetOpts.plain Nat with staleTTL := 100 } (.fn (.plain 2))
        ⟨some ⟨some 1, 0, 0⟩,
          ⟨none, none, none, false⟩⟩).state.regs.getOrSettingStale = true) ∧
    (∀ (st2 : OpState Nat) (value2 : SetValue Nat),
      (BaseCache.runBgJob true 1000 { CacheSetOpts.plain Nat with staleTTL := 100 }
        value2 st2).regs.getOrSettingStale = false) := by
  exact stale_background_amended true 1000
    { CacheSetOpts.plain Nat with staleTTL := 100 } (.fn (.plain 2))
    ⟨some 1, 0, 0⟩ 1 false (by decide) rfl rfl rfl (by decide) (by decide) rfl rfl

/-- Helper: `set` either leaves the per-key state untouched (the
set-undefined branch) or ends in a state whose registries are the input
registries with the `setting` entry cleared. -/
theorem set_state_cases {α : Type} (backendOk : Bool) (now : Nat)
    (opts : CacheSetOpts α) (st : OpState α) (value : SetValue α) :
    (BaseCache.set backendOk now opts st value).state = st ∨
    ∃ s, (BaseCache.set backendOk now opts st value).state
      = ⟨s, { st.regs with setting := none }⟩ := by
  induction value with
  | plain v =>
    right
    rcases h : BaseCache._setBoth backendOk now opts st.store (some v) with ⟨r, s2⟩
    cases r with
    | error e => exact ⟨none, by simp [BaseCache.set, h]⟩
    | ok lv => exact ⟨s2, by simp [BaseCache.set, h]⟩
  | undef => exact Or.inl rfl
  | promiseOk v =>
    right
    rcases h : BaseCache._setBoth backendOk now opts st.store v with ⟨r, s2⟩
    cases r with
    | error e => exact ⟨none, by simp [BaseCache.set, h]⟩
    | ok lv => exact ⟨s2, by simp [BaseCache.set, h]⟩
  | promiseErr => exact Or.inr ⟨none, rfl⟩
  | fnThrows => exact Or.inr ⟨none, rfl⟩
  | fn inner ih => exact ih

/-- Helper: `getStale` on a state with no pending `getting` entry never
touches the `setting` or `getOrSetting` registries, and when it resolves the
`getting` entry it registered has been cleared again. -/
theorem getStale_state {α : Type} (readOk : Bool) (now staleTTL : Nat)
    (opts : CacheSetOpts α) (dv : Option α) (st : OpState α)
    (hget : st.regs.getting = none) :
    ((BaseCache.getStale readOk now staleTTL opts dv st).state.regs.getOrSetting
        = st.regs.getOrSetting) ∧
    ((BaseCache.getStale readOk now staleTTL opts dv st).state.regs.setting
        = st.regs.setting) ∧
    (∀ v, (BaseCache.getStale readOk now staleTTL opts dv st).result = .ok v →
      (BaseCache.getStale readOk now staleTTL opts dv st).state.regs.getting
        = none) := by
  rcases htr : getStaleTransform opts (BaseCache._get readOk now st.store).1 with e | w
  · refine ⟨?_, ?_, ?_⟩ <;> simp [BaseCache.getStale, hget, htr]
  · refine ⟨?_, ?_, ?_⟩ <;> simp [BaseCache.getStale, hget, htr]

/-- Helper: `set` never touches the `getting`, `getOrSetting` or
`getOrSettingStale` registries. -/
theorem set_preserves_other_regs {α : Type} (backendOk : Bool) (now : Nat)
    (opts : CacheSetOpts α) (st : OpState α) (value : SetValue α) :
    (BaseCache.set backendOk now opts st value).state.regs.getting
        = st.regs.getting ∧
    (BaseCache.set backendOk now opts st value).state.regs.getOrSetting
        = st.regs.getOrSetting ∧
    (BaseCache.set backendOk now opts st value).state.regs.getOrSettingStale
        = st.regs.getOrSettingStale := by
  rcases set_state_cases backendOk now opts st value with h | ⟨s, h⟩ <;>
    rw [h] <;> exact ⟨rfl, rfl, rfl⟩

/-- Helper: when `_getOrSet` resolves, its final state has the `getting`
entry cleared and the `getOrSetting` registry untouched. -/
theorem getOrSet_inner_state {α : Type} (readOk backendOk : Bool) (now : Nat)
    (opts : CacheSetOpts α) (value : SetValue α) (st : OpState α)
    (hget : st.regs.getting = none) :
    ∀ w, (BaseCache._getOrSet readOk backendOk now opts value st).1 = .ok w →
      (BaseCache._getOrSet readOk backendOk now opts value st).2.regs.getting
        = none ∧
      (BaseCache._getOrSet readOk backendOk now opts value st).2.regs.getOrSetting
        = st.regs.getOrSetting := by
  intro w hres
  obtain ⟨hpre1, _, hpre3⟩ := getStale_state readOk now 0 opts none st hget
  rcases hgr : (BaseCache.getStale readOk now 0 opts none st).result with e | ev
  · simp only [BaseCache._getOrSet, hgr] at hres
    exact Except.noConfusion hres
  · cases ev with
    | some ex =>
      refine ⟨?_, ?_⟩ <;> simp only [BaseCache._getOrSet, hgr]
      · exact hpre3 _ hgr
      · exact hpre1
    | none =>
      cases value with
      | undef =>
        refine ⟨?_, ?_⟩ <;> simp only [BaseCache._getOrSet, hgr]
        · exact hpre3 _ hgr
        · exact hpre1
      | plain v =>
        simp only [BaseCache._getOrSet, hgr] at hres ⊢
        rcases ho : (BaseCache.set backendOk now opts
            (BaseCache.getStale readOk now 0 opts none st).state (.plain v)).result
          with e2 | b
        · simp only [ho] at hres
          exact Except.noConfusion hres
        · simp only [ho]
          obtain ⟨hg1, hg2, _⟩ := set_preserves_other_regs backendOk now opts
            (BaseCache.getStale readOk now 0 opts none st).state (.plain v)
          rw [hg1, hg2]
          exact ⟨hpre3 _ hgr, hpre1⟩
      | promiseOk v =>
        simp only [BaseCache._getOrSet, hgr] at hres ⊢
        rcases ho : (BaseCache.set backendOk now opts
            (BaseCache.getStale readOk now 0 opts none st).state
            (.promiseOk v)).result with e2 | b
        · simp only [ho] at hres
          exact Except.noConfusion hres
        · simp only [ho]
          obtain ⟨hg1, hg2, _⟩ := set_preserves_other_regs backendOk now opts
            (BaseCache.getStale readOk now 0 opts none st).state (.promiseOk v)
          rw [hg1, hg2]
          exact ⟨hpre3 _ hgr, hpre1⟩
      | promiseErr =>
        simp only [BaseCache._getOrSet, hgr] at hres ⊢
        rcases ho : (BaseCache.set backendOk now opts
            (BaseCache.getStale readOk now 0 opts none st).state
            .promiseErr).result with e2 | b
        · simp only [ho] at hres
          exact Except.noConfusion hres
        · simp only [ho]
          obtain ⟨hg1, hg2, _⟩ := set_preserves_other_regs backendOk now opts
            (BaseCache.getStale readOk now 0 opts none st).state .promiseErr
          rw [hg1, hg2]
          exact ⟨hpre3 _ hgr, hpre1⟩
      | fn inner =>
        simp only [BaseCache._getOrSet, hgr] at hres ⊢
        rcases ho : (BaseCache.set backendOk now opts
            (BaseCache.getStale readOk now 0 opts none st).state
            (.fn inner)).result with e2 | b
        · simp only [ho] at hres
          exact Except.noConfusion hres
        · simp only [ho]
          obtain ⟨hg1, hg2, _⟩ := set_preserves_other_regs backendOk now opts
            (BaseCache.getStale readOk now 0 opts none st).state (.fn inner)
          rw [hg1, hg2]
          exact ⟨hpre3 _ hgr, hpre1⟩
      | fnThrows =>
        simp only [BaseCache._getOrSet, hgr] at hres ⊢
        rcases ho : (BaseCache.set backendOk now opts
            (BaseCache.getStale readOk now 0 opts none st).state
            .fnThrows).result with e2 | b
        · simp only [ho] at hres
          exact Except.noConfusion hres
        · simp only [ho]
          obtain ⟨hg1, hg2, _⟩ := set_preserves_other_regs backendOk now opts
            (BaseCache.getStale readOk now 0 opts none st).state .fnThrows
          rw [hg1, hg2]
          exact ⟨hpre3 _ hgr, hpre1⟩

/-- Claim C1 (amended): the `setting` (writing) registry entry is cleared on
every settlement of `set`, success or failure; the background-refresh job
always clears its `getOrSettingStale` entry; and a plain `getOrSet` that
*resolves* ends with its `getOrSetting` and `getting` entries cleared. When
the operation *rejects*, however, the `getOrSetting` entry (and likewise the
`getting` entry for a throwing read transform) is never removed, and later
callers forever share the settled rejected promise — see the
counterexample. -/
theorem registries_cleared_amended {α : Type} (bypassed readOk backendOk : Bool)
    (now : Nat) (opts : CacheSetOpts α) (value : SetValue α) (st : OpState α)
    (hregs : st.regs = Regs.empty α) (hstl : opts.staleTTL = 0) :
    ((BaseCache.set backendOk now opts st value).state.regs.setting = none) ∧
    ((BaseCache.runBgJob backendOk now opts value st).regs.getOrSettingStale
        = false) ∧
    (∀ v, (BaseCache.getOrSet bypassed readOk backendOk now opts value st).result
        = .ok v →
      (BaseCache.getOrSet bypassed readOk backendOk now opts value
          st).state.regs.getOrSetting = none ∧
      (BaseCache.getOrSet bypassed readOk backendOk now opts value
          st).state.regs.getting = none) := by
  have hroute : (opts.staleTTL != 0) = false := by
    simp [hstl]
  have hgos : st.regs.getOrSetting = none := by rw [hregs]; rfl
  have hget : st.regs.getting = none := by rw [hregs]; rfl
  have hsetting : st.regs.setting = none := by rw [hregs]; rfl
  refine ⟨?_, rfl, ?_⟩
  · rcases set_state_cases backendOk now opts st value with h | ⟨s, h⟩
    · rw [h, hregs]
      rfl
    · rw [h]
  · intro v hres
    cases bypassed with
    | true =>
      refine ⟨?_, ?_⟩ <;> simp [BaseCache.getOrSet, hroute, hgos, hget]
    | false =>
      cases hfu : opts.forceUpdate with
      | true =>
        have hpres := set_preserves_other_regs backendOk now opts st value
        refine ⟨?_, ?_⟩ <;>
          simp only [BaseCache.getOrSet, hroute, hgos, hfu, BaseCache._setWithCheck,
            hsetting, Bool.false_eq_true, if_false] <;>
          rcases ho : (BaseCache.set backendOk now opts st value).result with e | b <;>
          simp only [ho] <;>
          simp [hpres.1, hpres.2.1, hget, hgos]
      | false =>
        rcases hr : (BaseCache._getOrSet readOk backendOk now opts value st).1
          with e | wv
        · exfalso
          have hthrow : (BaseCache.getOrSet false readOk backendOk now opts value
              st).result = .error e := by
            simp [BaseCache.getOrSet, hroute, hgos, hfu, hr]
          rw [hthrow] at hres
          exact Except.noConfusion hres
        · obtain ⟨hg, _⟩ := getOrSet_inner_state readOk backendOk now opts value st
            hget wv hr
          refine ⟨?_, ?_⟩ <;>
            simp [BaseCache.getOrSet, hroute, hgos, hfu, hr]
          exact hg

/-- Witness for C1 (amended) at a concrete successful run: a plain `getOrSet`
storing 7 resolves with every registry clear, `set` clears its `setting`
entry, and the background job clears its flag. -/
theorem registries_cleared_amended_witness :
    ((BaseCache.set (α := Nat) true 1000 (CacheSetOpts.plain Nat)
        ⟨none, Regs.empty Nat⟩ (.fn (.plain 7))).state.regs.setting = none) ∧
    ((BaseCache.runBgJob (α := Nat) true 1000 (CacheSetOpts.plain Nat)
        (.fn (.plain 7)) ⟨none, Regs.empty Nat⟩).regs.getOrSettingStale = false) ∧
    ((BaseCache.getOrSet (α := Nat) false true true 1000 (CacheSetOpts.plain Nat)
        (.fn (.plain 7)) ⟨none, Regs.empty Nat⟩).state.regs.getOrSetting = none ∧
      (BaseCache.getOrSet (α := Nat) false true true 1000 (CacheSetOpts.plain Nat)
        (.fn (.plain 7)) ⟨none, Regs.empty Nat⟩).state.regs.getting = none) := by
  have h := registries_cleared_amended (α := Nat) false true true 1000
    (CacheSetOpts.plain Nat) (.fn (.plain 7)) ⟨none, Regs.empty Nat⟩ rfl rfl
  exact ⟨h.1, h.2.1, h.2.2 (some 7) rfl⟩

/-- Helper: a caller arriving while a promise is registered only joins the
waiter list. -/
theorem arrive_inflight_some {α : Type} (run : DogpileRun α) (s : DogpileState α)
    (i : Nat) (h : s.inflight.isSome = true) :
    run.arrive s i = { s with waiters := i :: s.waiters } := by
  rcases hh : s.inflight with _ | f
  · rw [hh] at h
    exact Bool.noConfusion h
  · simp [DogpileRun.arrive, hh]

/-- Helper: while a promise is registered, any sequence of arrivals only
accumulates waiters. -/
theorem foldl_arrive_join {α : Type} (run : DogpileRun α) (cs : List Nat) :
    ∀ s : DogpileState α, s.inflight.isSome = true →
      cs.foldl run.arrive s = { s with waiters := cs.reverse ++ s.waiters } := by
  induction cs with
  | nil =>
    intro s _
    simp
  | cons c cs ih =>
    intro s h
    rw [List.foldl_cons, arrive_inflight_some run s c h,
      ih { s with waiters := c :: s.waiters } h]
    simp

/-- Claim C2: with no existing entry and no options (`process` absent), any
number N ≥ 1 of concurrent plain `getOrSet` callers invoke the producer
exactly once, every caller resolves, and all resolve to the identical value:
the producer's value (or `options.default` when the producer resolved
`undefined`). -/
theorem dogpile_single_flight {α : Type} (run : DogpileRun α) (callers : List Nat)
    (hproc : run.process = none) (hne : callers ≠ []) :
    (run.run callers).fnCalls = 1 ∧
    (run.run callers).results.length = callers.length ∧
    ∀ p ∈ (run.run callers).results, p.2 = run.expected := by
  rcases callers with _ | ⟨c, cs⟩
  · exact absurd rfl hne
  have happ : ∀ x : α, run.applyProcess x = x := by
    intro x
    simp [DogpileRun.applyProcess, hproc]
  have hresw : run.resolveWaiter run.expected = run.expected := by
    rcases hfn : run.fnVal with _ | x
    · rcases hd : run.dflt with _ | d <;>
        simp [DogpileRun.resolveWaiter, DogpileRun.expected, hfn, hd, happ]
    · simp [DogpileRun.resolveWaiter, DogpileRun.expected, hfn, happ]
  have harr : run.arrive (DogpileState.init α) c
      = ⟨some ⟨c, run.expected, run.fnVal⟩, [], none, 1, []⟩ := by
    rcases hfn : run.fnVal with _ | x <;>
      simp [DogpileRun.arrive, DogpileState.init, hfn, happ, DogpileRun.expected]
  have hfold : List.foldl run.arrive
      ⟨some ⟨c, run.expected, run.fnVal⟩, [], none, 1, []⟩ cs
      = ⟨some ⟨c, run.expected, run.fnVal⟩, cs.reverse, none, 1, []⟩ := by
    rw [foldl_arrive_join run cs
      (⟨some ⟨c, run.expected, run.fnVal⟩, [], none, 1, []⟩ : DogpileState α) rfl]
    simp
  have hcomp : run.run (c :: cs)
      = run.complete ⟨some ⟨c, run.expected, run.fnVal⟩, cs.reverse, none, 1, []⟩ := by
    rw [DogpileRun.run, List.foldl_cons, harr, hfold]
  refine ⟨?_, ?_, ?_⟩
  · rw [hcomp]
    simp [DogpileRun.complete]
  · rw [hcomp]
    simp [DogpileRun.complete]
  · intro p hp
    rw [hcomp] at hp
    simp only [DogpileRun.complete, List.append_nil, List.mem_cons,
      List.mem_map] at hp
    rcases hp with h | ⟨j, _, hjp⟩
    · rw [h]
    · rw [← hjp]
      simp [hresw]

/-- Witness for C2: three concurrent callers with producer value 7 — one
producer invocation, three results, all equal to 7. -/
theorem dogpile_single_flight_witness :
    (DogpileRun.run ⟨some 7, none, none⟩ [0, 1, 2]).fnCalls = 1 ∧
    (DogpileRun.run ⟨some 7, none, none⟩ [0, 1, 2]).results.length = 3 ∧
    ∀ p ∈ (DogpileRun.run ⟨some 7, none, none⟩ [0, 1, 2]).results, p.2 = some 7 := by
  have h := dogpile_single_flight (⟨some 7, none, none⟩ : DogpileRun Nat) [0, 1, 2]
    rfl (by decide)
  exact ⟨h.1, h.2.1, h.2.2⟩
